import Mathlib

/-
Verification of the settings-resolution, numbering/formatting and
profile-registry core of the obsidian-latex-theorem-equation-referencer
plugin (Math Booster).

Strings are embedded as lists of characters (`Str`); JavaScript objects
holding optional keys become functions into `Option`; the mutable profile
table becomes an association list with JavaScript object-key semantics
(unique keys, replacement in place, fresh keys appended).
-/

namespace MathBooster

abbrev Str := List Char

/-! ## Numeral formatter (src/unnamed/part_001, lines 16-52) -/

/-- Base-`base` digit expansion of `n`, most significant digit first, as
`Number.prototype.toString(base)` renders it.  Written with structural fuel
so that concrete values reduce inside the kernel; fuel `n` always suffices
for input `n`. -/
def digitsAux (base : Nat) : Nat → Nat → List Nat
  | 0, n => [n]
  | fuel + 1, n => if n < base then [n] else digitsAux base fuel (n / base) ++ [n % base]

def digitsBase (base n : Nat) : List Nat := digitsAux base n n

def digitChar10 (d : Nat) : Char := Char.ofNat (48 + d)

/-- `String(num)` on a natural number: its decimal digit string. -/
def natToStr (n : Nat) : Str := (digitsBase 10 n).map digitChar10

def ALPH : Str := "ABCDEFGHIJKLMNOPQRSTUVWXYZ".data

/-- `toAlphUpper` from the source: `(num - 1).toString(26)` rendered with the
base-26 digits replaced by the letters of `ALPH`.  `toString(26)` produces the
positional base-26 expansion of `num - 1` and `parseInt(c, 26)` recovers each
digit's numeric value, so the composition maps every digit `d` to `ALPH[d]`.
Subtraction is `Nat` subtraction; the function is only specified for
`num ≥ 1`. -/
def toAlphUpper (num : Nat) : Str := (digitsBase 26 (num - 1)).map (fun d => ALPH.getD d '*')

def toAlphLower (num : Nat) : Str := (toAlphUpper num).map Char.toLower

def ROMAN : List Str :=
  ["", "C", "CC", "CCC", "CD", "D", "DC", "DCC", "DCCC", "CM",
   "", "X", "XX", "XXX", "XL", "L", "LX", "LXX", "LXXX", "XC",
   "", "I", "II", "III", "IV", "V", "VI", "VII", "VIII", "IX"].map String.data

/-- `toRomanUpper` from the source.  The loop pops the last three decimal
digits — units with table row 2 (offset 20), tens row 1 (offset 10), hundreds
row 0 — and prepends one `M` per remaining thousand; a missing digit indexes
past the table and contributes the empty string, which is the same as reading
digit 0 of that row. -/
def toRomanUpper (num : Nat) : Str :=
  List.replicate (num / 1000) 'M'
    ++ ROMAN.getD (num / 100 % 10) []
    ++ ROMAN.getD (num / 10 % 10 + 10) []
    ++ ROMAN.getD (num % 10 + 20) []

def toRomanLower (num : Nat) : Str := (toRomanUpper num).map Char.toLower

inductive NumberStyle
  | arabic
  | alph
  | Alph
  | roman
  | Roman
deriving DecidableEq

/-- The CONVERTER table from the source. -/
def CONVERTER : NumberStyle → Nat → Str
  | .arabic => natToStr
  | .alph => toAlphLower
  | .Alph => toAlphUpper
  | .roman => toRomanLower
  | .Roman => toRomanUpper

/-! ## Configuration model

`MathContextSettings` is declared in src/settings/settings.ts, a file not
included in the repository snapshot; the recognized option names below are
those enumerated by the spec's data model and exercised one by one in
src/src/settings/helper.ts (`makeSettingPane`). -/

inductive CtxKey
  | lang
  | mathCalloutStyle
  | mathCalloutFontInherit
  | titleSuffix
  | labelPrefix
  | rename
  | numberPrefix
  | numberSuffix
  | numberInit
  | numberStyle
  | numberDefault
  | refFormat
  | eqNumberPrefix
  | eqNumberSuffix
  | eqNumberInit
  | eqNumberStyle
  | lineByLine
  | eqRefPrefix
  | eqRefSuffix
  | profile
deriving DecidableEq, Fintype

/-- The value stored under one option key. -/
inductive Value
  | vstr (s : Str)
  | vbool (b : Bool)
  | vnat (n : Nat)
  | vtable (t : List (Str × Str))
deriving DecidableEq

/-- A partial configuration: a JavaScript object that defines some subset of
the recognized option keys. -/
abbrev PartialConfig := CtxKey → Option Value

def emptyCfg : PartialConfig := fun _ => none

/-- A configuration defining exactly one key. -/
def singleCfg (k : CtxKey) (v : Value) : PartialConfig :=
  fun q => if q = k then some v else none

/-- Modelled from the spec: `DEFAULT_SETTINGS` lives in src/settings/settings.ts,
which is not among the provided files.  The spec states the global default is
fully populated over the recognized options, that the numbering initial count
defaults to 1 and the numbering style to "arabic" (section 4.4), and that the
built-in profiles are English and Japanese; the remaining values are neutral
defaults and no theorem depends on them beyond their being defined. -/
def DEFAULT_SETTINGS : PartialConfig := fun k =>
  match k with
  | .lang => some (.vstr "en".data)
  | .mathCalloutStyle => some (.vstr "plain".data)
  | .mathCalloutFontInherit => some (.vbool false)
  | .titleSuffix => some (.vstr "".data)
  | .labelPrefix => some (.vstr "".data)
  | .rename => some (.vtable [])
  | .numberPrefix => some (.vstr "".data)
  | .numberSuffix => some (.vstr "".data)
  | .numberInit => some (.vnat 1)
  | .numberStyle => some (.vstr "arabic".data)
  | .numberDefault => some (.vstr "auto".data)
  | .refFormat => some (.vstr "Type [number]".data)
  | .eqNumberPrefix => some (.vstr "".data)
  | .eqNumberSuffix => some (.vstr "".data)
  | .eqNumberInit => some (.vnat 1)
  | .eqNumberStyle => some (.vstr "arabic".data)
  | .lineByLine => some (.vbool false)
  | .eqRefPrefix => some (.vstr "".data)
  | .eqRefSuffix => some (.vstr "".data)
  | .profile => some (.vstr "English".data)

/-! ## File tree (Obsidian's TAbstractFile) -/

def VAULT_ROOT : Str := "/".data

/-- A node of the vault's file hierarchy: the root folder, or a child of a
parent node with a name and a folder flag. -/
inductive FileNode
  | root
  | node (parent : FileNode) (name : Str) (isFolder : Bool)
deriving DecidableEq

/-- Obsidian path strings: the vault root is "/", children of the root are
named by their own name, deeper nodes join the parent path with "/". -/
def FileNode.path : FileNode → Str
  | .root => VAULT_ROOT
  | .node .root nm _ => nm
  | .node (.node gp n2 f2) nm _ => FileNode.path (.node gp n2 f2) ++ '/' :: nm

/-- The parent chain of a node, from the node up to the root.  `getAncestors`
in the source walks `ancestor.parent` until it is null (the vault root's parent
is null; its extra break on a root argument only re-describes that stop). -/
def chainUp : FileNode → List FileNode
  | .root => [.root]
  | .node p nm f => .node p nm f :: chainUp p

/-- `getAncestors` from the source: the chain from the root down to the file,
the file itself included. -/
def getAncestors (file : FileNode) : List FileNode := (chainUp file).reverse

/-! ## Profiles (src/src/profile.ts) -/

inductive TheoremLikeEnvID
  | axiomK
  | definitionK
  | lemmaK
  | propositionK
  | theoremK
  | corollaryK
  | claimK
  | assumptionK
  | exampleK
  | exerciseK
  | conjectureK
  | hypothesisK
  | remarkK
deriving DecidableEq, Fintype

structure ProfileMeta where
  tags : List Str

/-- A profile: id, metadata and a total map from environment kind to display
string (`ProfileBody`). -/
structure Profile where
  id : Str
  meta : ProfileMeta
  body : TheoremLikeEnvID → Str

/-- The profile table `extraSettings.profiles`: a JavaScript object keyed by
profile id, embedded as an association list with unique keys. -/
abbrev ProfileTable := List (Str × Profile)

def englishBody : TheoremLikeEnvID → Str
  | .axiomK => "Axiom".data
  | .definitionK => "Definition".data
  | .lemmaK => "Lemma".data
  | .propositionK => "Proposition".data
  | .theoremK => "Theorem".data
  | .corollaryK => "Corollary".data
  | .claimK => "Claim".data
  | .assumptionK => "Assumption".data
  | .exampleK => "Example".data
  | .exerciseK => "Exercise".data
  | .conjectureK => "Conjecture".data
  | .hypothesisK => "Hypothesis".data
  | .remarkK => "Remark".data

def japaneseBody : TheoremLikeEnvID → Str
  | .axiomK => "公理".data
  | .definitionK => "定義".data
  | .lemmaK => "補題".data
  | .propositionK => "命題".data
  | .theoremK => "定理".data
  | .corollaryK => "系".data
  | .claimK => "主張".data
  | .assumptionK => "仮定".data
  | .exampleK => "例".data
  | .exerciseK => "演習問題".data
  | .conjectureK => "予想".data
  | .hypothesisK => "仮説".data
  | .remarkK => "注".data

def DEFAULT_PROFILES : ProfileTable :=
  [("English".data, ⟨"English".data, ⟨["en".data]⟩, englishBody⟩),
   ("Japanese".data, ⟨"Japanese".data, ⟨["ja".data]⟩, japaneseBody⟩)]

/-! ## Plugin state -/

/-- The plugin state the resolver and the profile registry read and write:
`plugin.settings` (per-path stored partial configurations) and
`plugin.extraSettings.profiles`. -/
structure PluginState where
  settings : List (Str × PartialConfig)
  profiles : ProfileTable

/-- Association-list lookup, as indexing a JavaScript object by key. -/
def lookupA {α : Type} : List (Str × α) → Str → Option α
  | [], _ => none
  | (k, v) :: rest, key => if k = key then some v else lookupA rest key

/-! ## Settings resolver (src/unnamed/part_001, lines 406-422) -/

/-- `Object.assign(target, source)`: every key the source defines overwrites
the target's entry for it, keys the source leaves undefined keep the
target's value. -/
def objAssign (target source : PartialConfig) : PartialConfig :=
  fun k =>
    match source k with
    | some v => some v
    | none => target k

/-- The stored configuration `plugin.settings[ancestor.path]`, the empty
object when the path has none (`Object.assign` with `undefined` is a no-op,
which assigning the empty configuration reproduces). -/
def cfgOf (plugin : PluginState) (a : FileNode) : PartialConfig :=
  (lookupA plugin.settings a.path).getD emptyCfg

/-- `resolveSettings` from the source: start from a copy of
`DEFAULT_SETTINGS`, `Object.assign` each ancestor's stored configuration in
root-to-file order, finally `Object.assign` the per-block settings
(`undefined` modelled as `none`). -/
def resolveSettings (settings : Option PartialConfig) (plugin : PluginState)
    (currentFile : FileNode) : PartialConfig :=
  let resolved := objAssign emptyCfg DEFAULT_SETTINGS
  let folded := (getAncestors currentFile).foldl (fun acc a => objAssign acc (cfgOf plugin a)) resolved
  objAssign folded (settings.getD emptyCfg)

/-- The value the spec's nearest-wins description assigns to an option: the
block override when it defines the option, otherwise the value of the closest
ancestor whose stored configuration defines it, otherwise the global
default. -/
def nearestWinsValue (settings : Option PartialConfig) (plugin : PluginState)
    (currentFile : FileNode) (k : CtxKey) : Option Value :=
  match (settings.getD emptyCfg) k with
  | some v => some v
  | none =>
    match (getAncestors currentFile).reverse.findSome? (fun a => cfgOf plugin a k) with
    | some v => some v
    | none => DEFAULT_SETTINGS k

/-! ## Plugin loading (src/unnamed/part_000, MathPlugin.loadSettings) -/

/-- The persisted blob `loadData` returns: a per-path map of stored partial
configurations and the excluded-file list.  A blob whose `settings` field is
absent behaves as the empty map (`Object.assign` with `undefined` is a
no-op). -/
structure LoadedData where
  settings : Str → Option PartialConfig
  excludedFiles : List Str

/-- `loadSettings` from the source:
`Object.assign({}, { [VAULT_ROOT]: DEFAULT_SETTINGS }, loadedData.settings)` —
a shallow merge at the path level, so a stored entry for a path (the root
included) replaces the seeded default entry wholesale; with no persisted data
the map holds only the root default. -/
def loadSettings (loadedData : Option LoadedData) : (Str → Option PartialConfig) × List Str :=
  match loadedData with
  | some d =>
    (fun p =>
      match d.settings p with
      | some c => some c
      | none => if p = VAULT_ROOT then some DEFAULT_SETTINGS else none,
     d.excludedFiles)
  | none =>
    (fun p => if p = VAULT_ROOT then some DEFAULT_SETTINGS else none, [])

/-- Every recognized option is defined. -/
def Populated (c : PartialConfig) : Prop := ∀ k, (c k).isSome = true

instance (c : PartialConfig) : Decidable (Populated c) :=
  inferInstanceAs (Decidable (∀ k, (c k).isSome = true))

/-! ## Title formatter (src/unnamed/part_001, lines 424-460)

The resolved settings a formatter receives are
`Required<MathContextSettings> & Partial<MathCalloutSettings>` plus the
private `_index`; the fields the formatter reads are embedded as a structure.
Fields typed `Required` are total; the optional per-block strings (`number`,
`title`, `label`) use the empty string for both the JavaScript empty string
and `undefined`, which the source's truthiness tests treat alike. -/

structure ResolvedMathSettings where
  type : TheoremLikeEnvID
  profile : Str
  number : Str
  numberInit : Nat
  numberStyle : NumberStyle
  numberPrefix : Str
  numberSuffix : Str
  title : Str
  titleSuffix : Str
  label : Str
  labelPrefix : Str
  _index : Option Nat
deriving DecidableEq

/-- `formatMathCalloutType`: the active profile's display string for the
block's environment kind.  The source reads the profile body's
theorem-environment table (`profile.body.theorem[settings.type]`); in
src/src/profile.ts the profile body is that table itself, so the lookup is
`body[type]`.  `none` models the runtime error the source hits when the
active profile id is not a key of the table. -/
def formatMathCalloutType (plugin : PluginState) (settings : ResolvedMathSettings) : Option Str :=
  (lookupA plugin.profiles settings.profile).map (fun pr => pr.body settings.type)

/-- `formatTitleWithoutSubtitle` from the source: the kind's display string,
then — when `number` is truthy — a space, the numbering prefix, the number
string (converted from `_index + numberInit` for "auto", the literal
otherwise) and the numbering suffix, appended only when the number string is
nonempty.  On the `Required` resolved type the source's
`settings.numberInit = settings.numberInit ?? 1` stores back the value it
read, and `settings.numberStyle ?? DEFAULT_SETTINGS.numberStyle` is the field
itself. -/
def formatTitleWithoutSubtitle (plugin : PluginState) (settings : ResolvedMathSettings) : Option Str :=
  (formatMathCalloutType plugin settings).map (fun typeName =>
    if settings.number ≠ [] then
      let numberString : Str :=
        if settings.number = "auto".data then
          match settings._index with
          | some idx => CONVERTER settings.numberStyle (idx + settings.numberInit)
          | none => []
        else settings.number
      if numberString ≠ [] then
        typeName ++ ' ' :: settings.numberPrefix ++ numberString ++ settings.numberSuffix
      else typeName
    else typeName)

/-- `formatTitle` from the source: the bare title, the parenthesized custom
subtitle when present, and the configured title suffix unless suppressed. -/
def formatTitle (plugin : PluginState) (settings : ResolvedMathSettings)
    (noTitleSuffix : Bool) : Option Str :=
  (formatTitleWithoutSubtitle plugin settings).map (fun t0 =>
    let t1 := if settings.title ≠ [] then t0 ++ ' ' :: '(' :: settings.title ++ [')'] else t0
    if ¬ noTitleSuffix ∧ settings.titleSuffix ≠ [] then t1 ++ settings.titleSuffix else t1)

/-- `resolveSettings` with the plugin state threaded through explicitly.  The
source allocates a fresh object (`Object.assign({}, DEFAULT_SETTINGS)`) and
assigns only into that fresh object, so the plugin state comes back exactly
as it went in. -/
def resolveSettingsSt (settings : Option PartialConfig) (plugin : PluginState)
    (currentFile : FileNode) : PartialConfig × PluginState :=
  (resolveSettings settings plugin currentFile, plugin)

/-- `formatTitleWithoutSubtitle` with the settings object threaded through.
The source performs one write into the caller's object,
`settings.numberInit = settings.numberInit ?? 1`, reached only in the
`number == 'auto'` branch with `_index` defined; on the `Required` resolved
type it stores back the value it read, mirrored by the update below. -/
def formatTitleWithoutSubtitleSt (plugin : PluginState) (settings : ResolvedMathSettings) :
    Option Str × ResolvedMathSettings :=
  match formatMathCalloutType plugin settings with
  | none => (none, settings)
  | some typeName =>
    if settings.number ≠ [] then
      if settings.number = "auto".data then
        match settings._index with
        | some idx =>
          let settings' : ResolvedMathSettings := { settings with numberInit := settings.numberInit }
          let numberString := CONVERTER settings'.numberStyle (idx + settings'.numberInit)
          (some (if numberString ≠ [] then
              typeName ++ ' ' :: settings'.numberPrefix ++ numberString ++ settings'.numberSuffix
            else typeName), settings')
        | none => (some typeName, settings)
      else
        (some (if settings.number ≠ [] then
            typeName ++ ' ' :: settings.numberPrefix ++ settings.number ++ settings.numberSuffix
          else typeName), settings)
    else (some typeName, settings)

/-! ## Reference letter enumeration (spec, sections 4.3 and 8) -/

/-- The k-th lowercase letter, 1-based: 1 is a, 26 is z. -/
def letterLower (k : Nat) : Char := Char.ofNat (96 + k)

def alphEnumAux : Nat → Nat → Str
  | 0, _ => []
  | fuel + 1, n =>
    if n = 0 then []
    else if n ≤ 26 then [letterLower n]
    else alphEnumAux fuel ((n - 1) / 26) ++ [letterLower (1 + (n - 1) % 26)]

/-- Modelled from the spec: the reference bijective base-26 letter
enumeration the spec checks `convert` against (1 → "a", 26 → "z", 27 → "aa",
52 → "az", 53 → "ba"). -/
def alphEnumeration (n : Nat) : Str := alphEnumAux n n

/-! ## Profile registry (src/src/profile.ts) -/

def tableKeys (t : ProfileTable) : List Str := t.map (fun e => e.1)

/-- Store `v` under key `k` with JavaScript object semantics: an existing key
is overwritten in place, a fresh key is appended. -/
def insertT (t : ProfileTable) (k : Str) (v : Profile) : ProfileTable :=
  if k ∈ tableKeys t then t.map (fun e => if e.1 = k then (k, v) else e)
  else t ++ [(k, v)]

/-- `delete profiles[k]`. -/
def eraseKey (t : ProfileTable) (k : Str) : ProfileTable :=
  t.filter (fun e => ! decide (e.1 = k))

def isDigit19 (c : Char) : Bool := decide ('1' ≤ c ∧ c ≤ '9')

def isDigit09 (c : Char) : Bool := decide ('0' ≤ c ∧ c ≤ '9')

/-- The tail of the regex `\(([1-9][0-9]*)\)` after the open paren: consume
decimal digits greedily and succeed on the closing paren with the digits'
value.  The digit run is followed by `)` which is not a digit, so the regex
engine's backtracking can never produce a match this greedy scan misses. -/
def parseParenNumGo (acc : Nat) : Str → Option Nat
  | [] => none
  | c :: rest =>
    if c = ')' then some acc
    else if isDigit09 c then parseParenNumGo (acc * 10 + (c.toNat - 48)) rest
    else none

/-- After a `(`: a nonzero digit, more digits, then `)`. -/
def parseParenNum : Str → Option Nat
  | [] => none
  | c :: rest => if isDigit19 c then parseParenNumGo (c.toNat - 48) rest else none

/-- `id.match(/\(([1-9][0-9]*)\)/)`: the first (leftmost) match's captured
number, scanning start positions left to right. -/
def scanFirstParenNum : Str → Option Nat
  | [] => none
  | c :: rest =>
    if c = '(' then
      match parseParenNum rest with
      | some n => some n
      | none => scanFirstParenNum rest
    else scanFirstParenNum rest

/-- One element of the `numbers` array in `makeIdOfCopy`:
`id.slice(oldID.length + 1).match(/\(([1-9][0-9]*)\)/)?.[1] ?? "0"` as a
number. -/
def extractCopyNumber (oldID id : Str) : Nat :=
  (scanFirstParenNum (id.drop (oldID.length + 1))).getD 0

/-- `makeIdOfCopy` from the source.  In the disambiguation branch the key
list is nonempty (it contains `"Copy of " ++ oldID`) and every extracted
value is a natural number, so `Math.max(...numbers)` equals the fold with
base 0. -/
def makeIdOfCopy (oldID : Str) (profiles : ProfileTable) : Str :=
  let newId := "Copy of ".data ++ oldID
  if ¬ (newId ∈ tableKeys profiles) then newId
  else
    let numbers := (tableKeys profiles).map (fun id => extractCopyNumber oldID id)
    let maxN := numbers.foldr Nat.max 0
    newId ++ ' ' :: '(' :: (natToStr (maxN + 1) ++ [')'])

/-- The copy button of ManageProfileModal.onOpen: deep-clone the profile,
replace its id by the disambiguated copy id and store it under that id.  The
clone of a missing key would fail at runtime; it is modelled as a no-op and
never reached by the claims. -/
def copyProfile (t : ProfileTable) (id : Str) : ProfileTable :=
  match lookupA t id with
  | none => t
  | some prof =>
    let newId := makeIdOfCopy id t
    insertT t newId { prof with id := newId }

/-- The add button of AddProfileModal.onOpen: a profile with the entered id,
no tags and every environment kind mapped to the empty string, stored under
the entered id. -/
def addProfile (t : ProfileTable) (id : Str) : ProfileTable :=
  insertT t id { id := id, meta := ⟨[]⟩, body := fun _ => [] }

/-- `getAffectedFiles`: the paths whose stored configuration references the
profile id. -/
def getAffectedFiles (plugin : PluginState) (oldProfileId : Str) : List Str :=
  (plugin.settings.filter
    (fun e => decide (e.2 CtxKey.profile = some (.vstr oldProfileId)))).map (fun e => e.1)

/-- Update the profile reference stored under one path: a truthy new id is
written, a falsy one (`undefined` or the empty string) deletes the key. -/
def setProfileRef (c : PartialConfig) (newID : Option Str) : PartialConfig :=
  fun k =>
    if k = CtxKey.profile then
      match newID with
      | some id => if id ≠ [] then some (.vstr id) else none
      | none => none
    else c k

/-- `updateProfile` from the source: rewrite the profile reference of every
listed path (the source mutates each `plugin.settings[path]` in place; the
paths always come from `getAffectedFiles`, so each is a key of the map). -/
def updateProfile (settings : List (Str × PartialConfig)) (paths : List Str)
    (newID : Option Str) : List (Str × PartialConfig) :=
  settings.map (fun e => if e.1 ∈ paths then (e.1, setProfileRef e.2 newID) else e)

/-- What the user does in UpdateProfileModal: confirm with the dropdown's
value (possibly the empty string, which unsets the references), or cancel. -/
inductive ReplacementChoice
  | confirm (newProfileID : Str)
  | cancel

/-- The profile-deletion flow of src/src/profile.ts: the Delete button of
ConfirmProfileDeletionModal deletes the entry at once when nothing references
it; otherwise UpdateProfileModal opens, Confirm runs `updateProfile` with the
dropdown value and Cancel does not, and in both cases the modal's `onClose`
deletes `profiles[id]`. -/
def deletionFlow (plugin : PluginState) (id : Str) (choice : ReplacementChoice) : PluginState :=
  let affected := getAffectedFiles plugin id
  if affected = [] then { plugin with profiles := eraseKey plugin.profiles id }
  else
    let p1 :=
      match choice with
      | .confirm newID => { plugin with settings := updateProfile plugin.settings affected (some newID) }
      | .cancel => plugin
    { p1 with profiles := eraseKey p1.profiles id }

/-- One step of EditProfileModal.onClose's loop at key `oldID`: when the
stored entry's id field differs from its key, the entry is re-keyed to its id
(`profiles[newID] = profiles[oldID]; delete profiles[oldID]`) and the rename
cascades to every location whose configuration references `oldID`. -/
def editCloseStep (plugin : PluginState) (oldID : Str) : PluginState :=
  match lookupA plugin.profiles oldID with
  | none => plugin
  | some prof =>
    if prof.id = oldID then plugin
    else
      { settings := updateProfile plugin.settings (getAffectedFiles plugin oldID) (some prof.id),
        profiles := insertT (eraseKey plugin.profiles oldID) prof.id prof }

def editCloseAux : PluginState → List Str → PluginState
  | plugin, [] => plugin
  | plugin, k :: rest => editCloseAux (editCloseStep plugin k) rest

/-- EditProfileModal.onClose: walk the table's keys, re-keying every entry
whose id was edited and cascading each rename into the stored location
settings. -/
def editClose (plugin : PluginState) : PluginState :=
  editCloseAux plugin (tableKeys plugin.profiles)

/-- Key–id consistency of the profile table: every entry is stored under its
own id. -/
def ConsistentTable (t : ProfileTable) : Prop := ∀ e ∈ t, e.1 = e.2.id

instance (t : ProfileTable) : Decidable (ConsistentTable t) :=
  List.decidableBAll _ t

/-- During the onClose loop over a snapshot of the table's keys, every entry
is already stored under its own id or its key is still pending. -/
def AlmostConsistent (t : ProfileTable) (pending : List Str) : Prop :=
  ∀ e ∈ t, e.1 = e.2.id ∨ e.1 ∈ pending

/-- The numeric value of a most-significant-first decimal digit list. -/
def val10 (l : List Nat) : Nat := l.foldl (fun a d => a * 10 + d) 0

/-- `formatTitle` with the settings object threaded through: its own body
only reads, the one write lives in `formatTitleWithoutSubtitleSt`. -/
def formatTitleSt (plugin : PluginState) (settings : ResolvedMathSettings)
    (noTitleSuffix : Bool) : Option Str × ResolvedMathSettings :=
  let r := formatTitleWithoutSubtitleSt plugin settings
  (r.1.map (fun t0 =>
    let t1 := if settings.title ≠ [] then t0 ++ ' ' :: '(' :: settings.title ++ [')'] else t0
    if ¬ noTitleSuffix ∧ settings.titleSuffix ≠ [] then t1 ++ settings.titleSuffix else t1),
   r.2)

/-! ## Concrete scenario states -/

/-- A folder directly under the vault root. -/
def demoFolder : FileNode := .node .root "fld".data true

/-- A note inside the folder. -/
def demoNoteUnderFolder : FileNode := .node demoFolder "note1.md".data false

/-- A note directly under the vault root. -/
def demoNoteUnderRoot : FileNode := .node .root "note2.md".data false

/-- Root sets option `k` to `v1`, the intermediate folder sets it to `v2`. -/
def demoPlugin (k : CtxKey) (v1 v2 : Value) : PluginState :=
  ⟨[(VAULT_ROOT, singleCfg k v1), ("fld".data, singleCfg k v2)], []⟩

/-- A plugin whose empty settings map exercises the no-stored-configuration
path of the resolver. -/
def emptyPlugin : PluginState := ⟨[], DEFAULT_PROFILES⟩

/-- Resolved settings for the numbering scenario: kind theorem, profile
English, number "auto", numberInit 1, the given style and sequence index,
and empty prefixes, suffixes, subtitle and label. -/
def autoNumberSettings (idx : Nat) (style : NumberStyle) : ResolvedMathSettings :=
  { type := .theoremK, profile := "English".data, number := "auto".data,
    numberInit := 1, numberStyle := style, numberPrefix := [], numberSuffix := [],
    title := [], titleSuffix := [], label := [], labelPrefix := [], _index := some idx }

/-- A stored root configuration defining only the numbering style. -/
def partialRomanCfg : PartialConfig := singleCfg CtxKey.numberStyle (.vstr "roman".data)

/-- A persisted blob whose only entry, under the root path, is the partial
configuration above. -/
def blobRomanRoot : LoadedData :=
  ⟨fun p => if p = VAULT_ROOT then some partialRomanCfg else none, []⟩

/-- A persisted blob with no entry for the root path. -/
def blobNoRoot : LoadedData :=
  ⟨fun p => if p = "note.md".data then some partialRomanCfg else none, []⟩

/-- A profile with the given id and an all-empty body, for key-set scenarios
where only the table's keys matter. -/
def dummyProfile (id : Str) : Profile := ⟨id, ⟨[]⟩, fun _ => []⟩

/-- The spec's copy-disambiguation scenario: "Copy of English" and
"Copy of English (2)" already exist. -/
def copyScenarioTable : ProfileTable :=
  [("English".data, dummyProfile "English".data),
   ("Japanese".data, dummyProfile "Japanese".data),
   ("Copy of English".data, dummyProfile "Copy of English".data),
   ("Copy of English (2)".data, dummyProfile "Copy of English (2)".data)]

/-- A table where an id unrelated to any copy of "English" carries a
parenthesized number past its eighth character. -/
def copyUnrelatedTable : ProfileTable :=
  [("English".data, dummyProfile "English".data),
   ("Copy of English".data, dummyProfile "Copy of English".data),
   ("Curvature (7) profile".data, dummyProfile "Curvature (7) profile".data)]

/-- A table built over the source id "P (2)", which itself contains a
parenthesized number. -/
def copyCollisionTable : ProfileTable :=
  [("P (2)".data, dummyProfile "P (2)".data),
   ("Copy of P (2)".data, dummyProfile "Copy of P (2)".data),
   ("Copy of P (2) (3)".data, dummyProfile "Copy of P (2) (3)".data)]

/-- A plugin in which one location, note.md, references the profile
"English". -/
def pluginOneRef : PluginState :=
  ⟨[("note.md".data, singleCfg CtxKey.profile (.vstr "English".data))], DEFAULT_PROFILES⟩

/-- A plugin whose profile table holds an entry whose id field was edited away
from its key, as EditProfileModal leaves it just before onClose re-keys it. -/
def pluginEditedProfile : PluginState :=
  ⟨[("note.md".data, singleCfg CtxKey.profile (.vstr "English".data))],
   [("English".data, dummyProfile "EN".data), ("Japanese".data, dummyProfile "Japanese".data)]⟩

/-! ## Theorems -/

theorem default_populated : Populated DEFAULT_SETTINGS := by decide

theorem objAssign_empty_default (k : CtxKey) :
    objAssign emptyCfg DEFAULT_SETTINGS k = DEFAULT_SETTINGS k := by
  unfold objAssign emptyCfg
  cases DEFAULT_SETTINGS k <;> rfl

theorem foldl_objAssign_key (plugin : PluginState) (l : List FileNode)
    (init : PartialConfig) (k : CtxKey) :
    (l.foldl (fun acc a => objAssign acc (cfgOf plugin a)) init) k =
      match l.reverse.findSome? (fun a => cfgOf plugin a k) with
      | some v => some v
      | none => init k := by
  induction l generalizing init with
  | nil => rfl
  | cons a l ih =>
    rw [List.foldl_cons, ih, List.reverse_cons, List.findSome?_append]
    cases h : l.reverse.findSome? (fun a => cfgOf plugin a k) with
    | some v => rfl
    | none =>
      cases h2 : cfgOf plugin a k with
      | some v => simp [objAssign, List.findSome?_cons, h2]
      | none => simp [objAssign, List.findSome?_cons, h2]

theorem resolveSettings_eq_nearestWins (settings : Option PartialConfig)
    (plugin : PluginState) (f : FileNode) (k : CtxKey) :
    resolveSettings settings plugin f k = nearestWinsValue settings plugin f k := by
  unfold resolveSettings nearestWinsValue
  cases hbo : (settings.getD emptyCfg) k with
  | some v => simp [objAssign, hbo]
  | none =>
    simp only [objAssign, hbo]
    rw [foldl_objAssign_key]
    cases hf : (getAncestors f).reverse.findSome? (fun a => cfgOf plugin a k) with
    | some v => rfl
    | none => exact objAssign_empty_default k

/-- C1: settings resolution obeys layer precedence.  For every file location
and every recognized option, `resolveSettings` yields the value of the closest
layer defining the option — block override first, then the nearest ancestor
with a stored configuration (the merge walks root-to-target, so later
ancestors win), then the global default; in particular, with the root setting
an option to `v1` and an intermediate folder to `v2`, a note under the folder
resolves to `v2` and a note under the root resolves to `v1`. -/
theorem c1_nearest_ancestor_wins :
    (∀ (settings : Option PartialConfig) (plugin : PluginState) (f : FileNode) (k : CtxKey),
      resolveSettings settings plugin f k = nearestWinsValue settings plugin f k)
  ∧ (∀ (k : CtxKey) (v1 v2 : Value),
      resolveSettings none (demoPlugin k v1 v2) demoNoteUnderFolder k = some v2
      ∧ resolveSettings none (demoPlugin k v1 v2) demoNoteUnderRoot k = some v1) := by
  constructor
  · exact resolveSettings_eq_nearestWins
  · intro k v1 v2
    cases k <;> exact ⟨rfl, rfl⟩

/-- C4: resolving with no block override always returns a configuration with
every recognized option populated (the global default is fully populated and
there is no error path), and a location none of whose ancestors stores a
configuration resolves to the global default. -/
theorem c4_resolve_populated :
    (∀ (plugin : PluginState) (f : FileNode), Populated (resolveSettings none plugin f))
  ∧ (∀ (plugin : PluginState) (f : FileNode),
      (∀ a ∈ getAncestors f, lookupA plugin.settings a.path = none) →
      ∀ k, resolveSettings none plugin f k = DEFAULT_SETTINGS k) := by
  constructor
  · intro plugin f k
    rw [resolveSettings_eq_nearestWins]
    unfold nearestWinsValue
    cases hf : (getAncestors f).reverse.findSome? (fun a => cfgOf plugin a k) with
    | some v => rfl
    | none => exact default_populated k
  · intro plugin f h k
    rw [resolveSettings_eq_nearestWins]
    unfold nearestWinsValue
    have hnone : (getAncestors f).reverse.findSome? (fun a => cfgOf plugin a k) = none := by
      rw [List.findSome?_eq_none_iff]
      intro a ha
      have : lookupA plugin.settings a.path = none := h a (List.mem_reverse.mp ha)
      simp [cfgOf, this, emptyCfg]
    rw [hnone]
    rfl

/-- C4 witness: at the root of a plugin with an empty settings map, the
resolved configuration is populated and equals the global default at a sample
key. -/
theorem c4_resolve_populated_witness :
    Populated (resolveSettings none emptyPlugin .root)
    ∧ resolveSettings none emptyPlugin .root CtxKey.lang = DEFAULT_SETTINGS CtxKey.lang :=
  ⟨c4_resolve_populated.1 emptyPlugin .root,
   c4_resolve_populated.2 emptyPlugin .root (by decide) CtxKey.lang⟩

theorem formatTitleWithoutSubtitleSt_spec (plugin : PluginState) (s : ResolvedMathSettings) :
    formatTitleWithoutSubtitleSt plugin s = (formatTitleWithoutSubtitle plugin s, s) := by
  obtain ⟨ty, pr, num, ni, ns, np, nsf, ti, ts, la, lp, ix⟩ := s
  unfold formatTitleWithoutSubtitleSt formatTitleWithoutSubtitle
  cases h : formatMathCalloutType plugin ⟨ty, pr, num, ni, ns, np, nsf, ti, ts, la, lp, ix⟩ with
  | none => rfl
  | some t =>
    by_cases h1 : num = []
    · simp [h1]
    · by_cases h2 : num = "auto".data
      · cases h3 : ix with
        | none => simp [h1, h2, h3]
        | some idx => simp [h1, h2, h3]
      · simp [h1, h2]

/-- C8: the settings resolver and the title formatter are pure.  With the
mutable state threaded explicitly, `resolveSettings` hands the plugin state
back unchanged and returns the same value on equal arguments, and the
formatters hand the passed resolved-settings object back unchanged (the
source's single write, `settings.numberInit = settings.numberInit ?? 1`,
stores back the value it read on the Required resolved type) while computing
the same title as the pure functions. -/
theorem c8_resolver_formatter_pure :
    (∀ (settings : Option PartialConfig) (plugin : PluginState) (f : FileNode),
      resolveSettingsSt settings plugin f = (resolveSettings settings plugin f, plugin))
  ∧ (∀ (plugin : PluginState) (s : ResolvedMathSettings),
      formatTitleWithoutSubtitleSt plugin s = (formatTitleWithoutSubtitle plugin s, s))
  ∧ (∀ (plugin : PluginState) (s : ResolvedMathSettings) (b : Bool),
      formatTitleSt plugin s b = (formatTitle plugin s b, s)) := by
  refine ⟨fun _ _ _ => rfl, formatTitleWithoutSubtitleSt_spec, ?_⟩
  intro plugin s b
  unfold formatTitleSt formatTitle
  rw [formatTitleWithoutSubtitleSt_spec]

/-- C2 counterexample: with numbering style "roman" (the lowercase style),
numberInit 1, an "auto" number, kind theorem and sequence index 0, the title
is "Theorem i", not the claimed "Theorem I". -/
theorem c2_counterexample_roman_lowercase :
    formatTitleWithoutSubtitle emptyPlugin (autoNumberSettings 0 .roman) = some "Theorem i".data
    ∧ ¬ formatTitleWithoutSubtitle emptyPlugin (autoNumberSettings 0 .roman) = some "Theorem I".data := by
  decide

/-- C2 amended: the title's leading word is the active profile's display
string for the block's kind ("Theorem" for the English profile); with
numbering style "roman", numberInit 1, an "auto" number and kind theorem,
sequence index 0 gives "Theorem i" and index 2 gives "Theorem iii" (the
lowercase roman style), while the uppercase style "Roman" gives "Theorem I"
and "Theorem III". -/
theorem c2_profile_title_formatting :
    formatMathCalloutType emptyPlugin (autoNumberSettings 0 .roman) = some "Theorem".data
    ∧ formatTitleWithoutSubtitle emptyPlugin (autoNumberSettings 0 .roman) = some "Theorem i".data
    ∧ formatTitleWithoutSubtitle emptyPlugin (autoNumberSettings 2 .roman) = some "Theorem iii".data
    ∧ formatTitleWithoutSubtitle emptyPlugin (autoNumberSettings 0 .Roman) = some "Theorem I".data
    ∧ formatTitleWithoutSubtitle emptyPlugin (autoNumberSettings 2 .Roman) = some "Theorem III".data := by
  decide

/-- C3 counterexample: at 27 the alph conversion produces "ba" (the
positional base-26 rendering of 26), not the bijective enumeration's "aa". -/
theorem c3_counterexample_alph_27 :
    toAlphLower 27 = "ba".data
    ∧ alphEnumeration 27 = "aa".data
    ∧ ¬ toAlphLower 27 = alphEnumeration 27 := by
  decide

/-- C3 amended: for 1 ≤ n ≤ 26 the alph/Alph conversions agree with the
bijective letter enumeration (1 → "a", 26 → "z", uppercase for Alph), but
from 27 on they produce the positional base-26 rendering of n − 1 with digit
letters a..z: 27 → "ba", 52 → "bz", 53 → "ca". -/
theorem c3_alph_agreement_to_26 :
    (∀ n : Nat, n < 27 → 1 ≤ n →
      toAlphLower n = alphEnumeration n
      ∧ toAlphUpper n = (alphEnumeration n).map Char.toUpper)
    ∧ toAlphLower 1 = "a".data ∧ toAlphLower 26 = "z".data
    ∧ toAlphLower 27 = "ba".data ∧ toAlphLower 52 = "bz".data ∧ toAlphLower 53 = "ca".data := by
  decide

/-- C3 witness: the agreement instantiated at n = 3. -/
theorem c3_alph_agreement_witness :
    toAlphLower 3 = alphEnumeration 3
    ∧ toAlphUpper 3 = (alphEnumeration 3).map Char.toUpper :=
  c3_alph_agreement_to_26.1 3 (by decide) (by decide)

/-- C7 counterexample: a persisted blob storing a partial configuration under
the root path becomes the in-memory root entry verbatim, so the root entry is
not fully populated (the language option is missing). -/
theorem c7_counterexample_partial_root_blob :
    (loadSettings (some blobRomanRoot)).1 VAULT_ROOT = some partialRomanCfg
    ∧ ¬ Populated partialRomanCfg := by
  exact ⟨rfl, by decide⟩

/-- C7 amended: after loadSettings the in-memory map always has a root entry;
when no blob was persisted, or the blob stores nothing under the root path,
that entry is the fully populated global default; a stored root entry is
taken verbatim, so it is fully populated only when the stored configuration
is. -/
theorem c7_root_entry_after_load :
    ((loadSettings none).1 VAULT_ROOT = some DEFAULT_SETTINGS)
    ∧ (∀ d : LoadedData, d.settings VAULT_ROOT = none →
        (loadSettings (some d)).1 VAULT_ROOT = some DEFAULT_SETTINGS)
    ∧ (∀ d : Option LoadedData, ((loadSettings d).1 VAULT_ROOT).isSome = true)
    ∧ Populated DEFAULT_SETTINGS := by
  refine ⟨rfl, ?_, ?_, default_populated⟩
  · intro d hd
    simp [loadSettings, hd]
  · intro d
    cases d with
    | none => rfl
    | some d =>
      cases hd : d.settings VAULT_ROOT with
      | some c => simp [loadSettings, hd]
      | none => simp [loadSettings, hd]

/-- C7 witness: a blob with no root entry loads to the populated global
default at the root. -/
theorem c7_root_entry_witness :
    (loadSettings (some blobNoRoot)).1 VAULT_ROOT = some DEFAULT_SETTINGS :=
  c7_root_entry_after_load.2.1 blobNoRoot (by decide)

/-- C5: cancelling the replacement-selection modal still deletes the profile,
leaving the location's configuration referencing the deleted id.  With one
location referencing "English", running the deletion flow and cancelling
removes the profile entry while the reference survives — the dangling state
the claim says is unreachable. -/
theorem c5_cancel_leaves_dangling_reference :
    ¬ ("English".data ∈ tableKeys (deletionFlow pluginOneRef "English".data .cancel).profiles)
    ∧ (lookupA (deletionFlow pluginOneRef "English".data .cancel).settings "note.md".data).map
        (fun c => c CtxKey.profile) = some (some (.vstr "English".data)) := by
  decide

/-- C6 amended: the disambiguating suffix is one greater than the maximum
parenthesized number the source extracts from every existing profile id
after dropping its first |oldID| + 1 characters — not only from copies of the
source id; the spec's concrete scenario is unaffected: copying "English" when
"Copy of English" and "Copy of English (2)" exist yields
"Copy of English (3)". -/
theorem c6_copy_disambiguation_scenario :
    makeIdOfCopy "English".data copyScenarioTable = "Copy of English (3)".data := by
  decide

/-- C6 counterexample: an id that is no copy of "English" but contains a
parenthesized number past its eighth character raises the maximum, so the
copy is named "Copy of English (8)" although the only existing copy of
"English" is the unsuffixed first copy (the claimed rule demands
"Copy of English (2)"). -/
theorem c6_counterexample_unrelated_id :
    makeIdOfCopy "English".data copyUnrelatedTable = "Copy of English (8)".data
    ∧ ¬ makeIdOfCopy "English".data copyUnrelatedTable = "Copy of English (2)".data := by
  decide

/-- C9 counterexample: for the source id "P (2)" — which itself contains a
parenthesized number — the disambiguated copy id collides with an existing
key, so storing the copy overwrites that profile and the table does not
grow. -/
theorem c9_counterexample_collision :
    makeIdOfCopy "P (2)".data copyCollisionTable ∈ tableKeys copyCollisionTable
    ∧ (copyProfile copyCollisionTable "P (2)".data).length = copyCollisionTable.length := by
  decide

theorem digitChar10_facts : ∀ d : Nat, d < 10 →
    ¬ digitChar10 d = ')' ∧ isDigit09 (digitChar10 d) = true ∧ (digitChar10 d).toNat - 48 = d := by
  decide

theorem digitChar10_isDigit19 : ∀ d : Nat, d < 10 → 1 ≤ d → isDigit19 (digitChar10 d) = true := by
  decide

theorem val10_append_singleton (l : List Nat) (d : Nat) :
    val10 (l ++ [d]) = val10 l * 10 + d := by
  unfold val10
  rw [List.foldl_append]
  rfl

theorem digitsAux10_spec : ∀ (fuel n : Nat), n ≤ fuel →
    (∀ d ∈ digitsAux 10 fuel n, d < 10)
    ∧ val10 (digitsAux 10 fuel n) = n
    ∧ digitsAux 10 fuel n ≠ []
    ∧ (1 ≤ n → ∀ d ds, digitsAux 10 fuel n = d :: ds → 1 ≤ d) := by
  intro fuel
  induction fuel with
  | zero =>
    intro n hn
    have h0 : n = 0 := Nat.le_zero.mp hn
    subst h0
    refine ⟨?_, rfl, by simp [digitsAux], ?_⟩
    · intro d hd
      simp [digitsAux] at hd
      omega
    · intro h
      omega
  | succ fuel ih =>
    intro n hn
    by_cases h : n < 10
    · have hshape : digitsAux 10 (fuel + 1) n = [n] := by simp [digitsAux, h]
      refine ⟨?_, ?_, ?_, ?_⟩
      · intro d hd
        rw [hshape] at hd
        simp at hd
        omega
      · rw [hshape]
        simp [val10]
      · rw [hshape]
        simp
      · intro h1 d ds hds
        rw [hshape] at hds
        injection hds with h2 h3
        omega
    · have h10 : 10 ≤ n := Nat.le_of_not_lt h
      have hdiv_le : n / 10 ≤ fuel := by
        have : n / 10 < n := Nat.div_lt_self (by omega) (by norm_num)
        omega
      obtain ⟨ih1, ih2, ih3, ih4⟩ := ih (n / 10) hdiv_le
      have hshape : digitsAux 10 (fuel + 1) n = digitsAux 10 fuel (n / 10) ++ [n % 10] := by
        simp [digitsAux, h]
      refine ⟨?_, ?_, ?_, ?_⟩
      · intro d hd
        rw [hshape] at hd
        rcases List.mem_append.mp hd with h1 | h1
        · exact ih1 d h1
        · simp at h1
          subst h1
          exact Nat.mod_lt _ (by norm_num)
      · rw [hshape, val10_append_singleton, ih2]
        omega
      · rw [hshape]
        simp
      · intro _ d ds hds
        rw [hshape] at hds
        cases hA : digitsAux 10 fuel (n / 10) with
        | nil => exact absurd hA ih3
        | cons d0 ds0 =>
          rw [hA] at hds
          simp at hds
          have hd0 : 1 ≤ d0 := by
            refine ih4 ?_ d0 ds0 hA
            have : 1 ≤ n / 10 := (Nat.one_le_div_iff (by norm_num)).mpr h10
            exact this
          omega

theorem parseParenNumGo_digits : ∀ (ds : List Nat) (acc : Nat), (∀ d ∈ ds, d < 10) →
    parseParenNumGo acc (ds.map digitChar10 ++ [')']) =
      some (ds.foldl (fun a d => a * 10 + d) acc) := by
  intro ds
  induction ds with
  | nil => intro acc _; rfl
  | cons d ds ih =>
    intro acc h
    have hd : d < 10 := h d (by simp)
    obtain ⟨hne, h09, hval⟩ := digitChar10_facts d hd
    simp only [List.map_cons, List.cons_append, parseParenNumGo]
    rw [if_neg hne, h09]
    simp only [if_true]
    rw [hval]
    exact ih (acc * 10 + d) (fun x hx => h x (by simp [hx]))

theorem parseParenNum_natToStr (m : Nat) (hm : 1 ≤ m) :
    parseParenNum (natToStr m ++ [')']) = some m := by
  obtain ⟨hlt, hval, hne, hhead⟩ := digitsAux10_spec m m le_rfl
  cases hA : digitsAux 10 m m with
  | nil => exact absurd hA hne
  | cons d ds =>
    have hnat : natToStr m = digitChar10 d :: ds.map digitChar10 := by
      unfold natToStr digitsBase
      rw [hA, List.map_cons]
    rw [hnat]
    have hd10 : d < 10 := hlt d (by rw [hA]; simp)
    have hd1 : 1 ≤ d := hhead hm d ds hA
    simp only [List.cons_append, parseParenNum]
    rw [digitChar10_isDigit19 d hd10 hd1]
    simp only [if_true]
    have hfacts := digitChar10_facts d hd10
    rw [hfacts.2.2]
    rw [parseParenNumGo_digits ds d (fun x hx => hlt x (by rw [hA]; simp [hx]))]
    congr 1
    have : val10 (d :: ds) = m := by rw [← hA]; exact hval
    unfold val10 at this
    simpa using this

theorem scanFirstParenNum_append_no_paren (s rest : Str) (h : '(' ∉ s) :
    scanFirstParenNum (s ++ rest) = scanFirstParenNum rest := by
  induction s with
  | nil => rfl
  | cons c s ih =>
    have hc : ¬ c = '(' := fun hh => h (by simp [hh])
    simp only [List.cons_append, scanFirstParenNum]
    rw [if_neg hc]
    exact ih (fun hm => h (List.mem_cons_of_mem _ hm))

theorem scanFirstParenNum_at_paren (s : Str) (m : Nat) (hm : 1 ≤ m) (h : '(' ∉ s) :
    scanFirstParenNum (s ++ '(' :: (natToStr m ++ [')'])) = some m := by
  rw [scanFirstParenNum_append_no_paren s _ h]
  simp only [scanFirstParenNum]
  rw [if_pos trivial, parseParenNum_natToStr m hm]

theorem extractCopyNumber_constructed (oldID : Str) (h : '(' ∉ oldID) (m : Nat) (hm : 1 ≤ m) :
    extractCopyNumber oldID
      (("Copy of ".data ++ oldID) ++ ' ' :: '(' :: (natToStr m ++ [')'])) = m := by
  unfold extractCopyNumber
  have hlen : oldID.length + 1 ≤ ("Copy of ".data ++ oldID).length := by
    simp
  rw [List.drop_append_of_le_length hlen]
  have hnp : '(' ∉ ("Copy of ".data ++ oldID).drop (oldID.length + 1) := by
    intro hmem
    have : '(' ∈ "Copy of ".data ++ oldID := List.drop_subset _ _ hmem
    rcases List.mem_append.mp this with h1 | h1
    · revert h1
      decide
    · exact h h1
  have hre : ("Copy of ".data ++ oldID).drop (oldID.length + 1) ++ ' ' :: '(' :: (natToStr m ++ [')'])
      = (("Copy of ".data ++ oldID).drop (oldID.length + 1) ++ [' ']) ++ '(' :: (natToStr m ++ [')']) := by
    simp
  rw [hre, scanFirstParenNum_at_paren _ m hm ?_]
  · rfl
  · intro hmem
    rcases List.mem_append.mp hmem with h1 | h1
    · exact hnp h1
    · simp at h1

theorem le_foldr_max (l : List Nat) (a : Nat) (h : a ∈ l) : a ≤ l.foldr Nat.max 0 := by
  induction l with
  | nil => cases h
  | cons b l ih =>
    rcases List.mem_cons.mp h with rfl | h2
    · exact Nat.le_max_left _ _
    · exact Nat.le_trans (ih h2) (Nat.le_max_right _ _)

/-- C9: when the source id contains no parenthesis, the copy id
`makeIdOfCopy` chooses is never an existing key, so storing the copy
overwrites nothing and the table grows by exactly one entry. -/
theorem c9_copy_id_fresh (profiles : ProfileTable) (oldID : Str) (h : '(' ∉ oldID) :
    makeIdOfCopy oldID profiles ∉ tableKeys profiles
    ∧ (∀ prof, lookupA profiles oldID = some prof →
        (copyProfile profiles oldID).length = profiles.length + 1) := by
  have main : makeIdOfCopy oldID profiles ∉ tableKeys profiles := by
    unfold makeIdOfCopy
    by_cases hin : ("Copy of ".data ++ oldID) ∈ tableKeys profiles
    · rw [if_neg (fun hc => hc hin)]
      intro hr
      have hval := extractCopyNumber_constructed oldID h
        ((((tableKeys profiles).map (fun id => extractCopyNumber oldID id)).foldr Nat.max 0) + 1)
        (by omega)
      have hmem : extractCopyNumber oldID
          (("Copy of ".data ++ oldID) ++ ' ' :: '(' ::
            (natToStr ((((tableKeys profiles).map (fun id => extractCopyNumber oldID id)).foldr Nat.max 0) + 1) ++ [')']))
          ∈ (tableKeys profiles).map (fun id => extractCopyNumber oldID id) :=
        List.mem_map_of_mem _ hr
      rw [hval] at hmem
      have := le_foldr_max _ _ hmem
      omega
    · rw [if_pos hin]
      exact hin
  refine ⟨main, ?_⟩
  intro prof hprof
  have hcp : copyProfile profiles oldID
      = insertT profiles (makeIdOfCopy oldID profiles)
          { prof with id := makeIdOfCopy oldID profiles } := by
    unfold copyProfile
    rw [hprof]
  rw [hcp]
  unfold insertT
  rw [if_neg main]
  simp

/-- C9 witness: copying the built-in profile "English" from the default
table stores the copy under a fresh key and grows the table by one. -/
theorem c9_copy_id_fresh_witness :
    makeIdOfCopy "English".data DEFAULT_PROFILES ∉ tableKeys DEFAULT_PROFILES
    ∧ (copyProfile DEFAULT_PROFILES "English".data).length = DEFAULT_PROFILES.length + 1 :=
  ⟨(c9_copy_id_fresh DEFAULT_PROFILES "English".data (by decide)).1,
   (c9_copy_id_fresh DEFAULT_PROFILES "English".data (by decide)).2 _ rfl⟩

theorem tableKeys_cons (e : Str × Profile) (t : ProfileTable) :
    tableKeys (e :: t) = e.1 :: tableKeys t := rfl

theorem mem_tableKeys_of_mem (t : ProfileTable) (e : Str × Profile) (he : e ∈ t) :
    e.1 ∈ tableKeys t :=
  List.mem_map_of_mem (fun x : Str × Profile => x.1) he

theorem lookupA_none_iff : ∀ (t : ProfileTable) (key : Str),
    lookupA t key = none ↔ key ∉ tableKeys t := by
  intro t key
  induction t with
  | nil =>
    constructor
    · intro _ hmem
      cases hmem
    · intro _
      rfl
  | cons e t ih =>
    obtain ⟨k, v⟩ := e
    constructor
    · intro h hmem
      unfold lookupA at h
      by_cases hk : k = key
      · rw [if_pos hk] at h
        cases h
      · rw [if_neg hk] at h
        rw [tableKeys_cons, List.mem_cons] at hmem
        rcases hmem with h1 | h1
        · exact hk h1.symm
        · exact (ih.mp h) h1
    · intro h
      unfold lookupA
      by_cases hk : k = key
      · exact absurd (show key ∈ tableKeys ((k, v) :: t) from
          hk ▸ List.mem_cons_self k (tableKeys t)) h
      · rw [if_neg hk]
        exact ih.mpr (fun hmem => h (by rw [tableKeys_cons]; exact List.mem_cons_of_mem _ hmem))

theorem lookupA_some_mem : ∀ (t : ProfileTable) (key : Str) (v : Profile),
    lookupA t key = some v → (key, v) ∈ t := by
  intro t
  induction t with
  | nil =>
    intro key v h
    cases h
  | cons e t ih =>
    intro key v h
    obtain ⟨k, w⟩ := e
    unfold lookupA at h
    by_cases hk : k = key
    · rw [if_pos hk] at h
      injection h with h2
      rw [← hk, ← h2]
      exact List.mem_cons_self (k, w) t
    · rw [if_neg hk] at h
      exact List.mem_cons_of_mem _ (ih key v h)

theorem mem_unique_of_nodupKeys : ∀ (t : ProfileTable), (tableKeys t).Nodup →
    ∀ e e' : Str × Profile, e ∈ t → e' ∈ t → e.1 = e'.1 → e = e' := by
  intro t
  induction t with
  | nil =>
    intro _ e e' he
    cases he
  | cons a t ih =>
    intro hnd e e' he he' hk
    rw [tableKeys_cons, List.nodup_cons] at hnd
    rcases List.mem_cons.mp he with rfl | h1
    · rcases List.mem_cons.mp he' with rfl | h2
      · rfl
      · exact absurd (by rw [hk]; exact mem_tableKeys_of_mem t e' h2) hnd.1
    · rcases List.mem_cons.mp he' with rfl | h2
      · exact absurd (by rw [← hk]; exact mem_tableKeys_of_mem t e h1) hnd.1
      · exact ih hnd.2 e e' h1 h2 hk

theorem tableKeys_map_replace (t : ProfileTable) (k : Str) (v : Profile) :
    tableKeys (t.map (fun e => if e.1 = k then (k, v) else e)) = tableKeys t := by
  induction t with
  | nil => rfl
  | cons e t ih =>
    rw [List.map_cons, tableKeys_cons, tableKeys_cons, ih]
    by_cases he : e.1 = k
    · rw [if_pos he, he]
    · rw [if_neg he]

theorem mem_insertT (t : ProfileTable) (k : Str) (v : Profile) (e : Str × Profile)
    (he : e ∈ insertT t k v) : e = (k, v) ∨ (e ∈ t ∧ ¬ e.1 = k) := by
  unfold insertT at he
  by_cases hk : k ∈ tableKeys t
  · rw [if_pos hk] at he
    obtain ⟨a, ha, hrep⟩ := List.mem_map.mp he
    by_cases h1 : a.1 = k
    · left
      rw [← hrep, if_pos h1]
    · right
      rw [← hrep, if_neg h1]
      exact ⟨ha, h1⟩
  · rw [if_neg hk] at he
    rcases List.mem_append.mp he with h1 | h1
    · right
      exact ⟨h1, fun hh => hk (hh ▸ mem_tableKeys_of_mem t e h1)⟩
    · left
      simpa using h1

theorem nodupKeys_insertT (t : ProfileTable) (k : Str) (v : Profile)
    (h : (tableKeys t).Nodup) : (tableKeys (insertT t k v)).Nodup := by
  unfold insertT
  by_cases hk : k ∈ tableKeys t
  · rw [if_pos hk, tableKeys_map_replace]
    exact h
  · rw [if_neg hk]
    have hkeys : tableKeys (t ++ [(k, v)]) = tableKeys t ++ [k] := by
      simp [tableKeys]
    rw [hkeys]
    rw [List.nodup_append]
    exact ⟨h, List.nodup_singleton k, by simpa [List.disjoint_singleton] using hk⟩

theorem mem_eraseKey (t : ProfileTable) (k : Str) (e : Str × Profile) :
    e ∈ eraseKey t k ↔ e ∈ t ∧ ¬ e.1 = k := by
  unfold eraseKey
  simp [List.mem_filter]

theorem nodupKeys_eraseKey (t : ProfileTable) (k : Str) (h : (tableKeys t).Nodup) :
    (tableKeys (eraseKey t k)).Nodup :=
  List.Nodup.sublist (List.Sublist.map _ (List.filter_sublist t)) h

theorem editCloseStep_invariant (p : PluginState) (k : Str) (rest : List Str)
    (hnd : (tableKeys p.profiles).Nodup)
    (hac : AlmostConsistent p.profiles (k :: rest)) :
    (tableKeys (editCloseStep p k).profiles).Nodup
    ∧ AlmostConsistent (editCloseStep p k).profiles rest := by
  cases hl : lookupA p.profiles k with
  | none =>
    have hred : editCloseStep p k = p := by
      unfold editCloseStep
      rw [hl]
    rw [hred]
    refine ⟨hnd, ?_⟩
    intro e he
    rcases hac e he with h | h
    · exact Or.inl h
    · rcases List.mem_cons.mp h with h1 | h1
      · exact absurd (h1 ▸ mem_tableKeys_of_mem p.profiles e he) ((lookupA_none_iff _ _).mp hl)
      · exact Or.inr h1
  | some prof =>
    by_cases hid : prof.id = k
    · have hred : editCloseStep p k = p := by
        unfold editCloseStep
        rw [hl]
        exact if_pos hid
      rw [hred]
      refine ⟨hnd, ?_⟩
      intro e he
      rcases hac e he with h | h
      · exact Or.inl h
      · rcases List.mem_cons.mp h with h1 | h1
        · left
          have heq : e = (k, prof) :=
            mem_unique_of_nodupKeys p.profiles hnd e (k, prof) he
              (lookupA_some_mem _ _ _ hl) (by simpa using h1)
          rw [heq]
          exact hid.symm
        · exact Or.inr h1
    · have hred : editCloseStep p k =
          { settings := updateProfile p.settings (getAffectedFiles p k) (some prof.id),
            profiles := insertT (eraseKey p.profiles k) prof.id prof } := by
        unfold editCloseStep
        rw [hl]
        exact if_neg hid
      rw [hred]
      refine ⟨nodupKeys_insertT _ _ _ (nodupKeys_eraseKey _ _ hnd), ?_⟩
      intro e he
      rcases mem_insertT _ _ _ _ he with heq | ⟨h1, h2⟩
      · left
        rw [heq]
      · have h3 := (mem_eraseKey _ _ _).mp h1
        rcases hac e h3.1 with h4 | h4
        · exact Or.inl h4
        · rcases List.mem_cons.mp h4 with h5 | h5
          · exact absurd h5 h3.2
          · exact Or.inr h5

theorem editCloseAux_consistent : ∀ (pending : List Str) (p : PluginState),
    (tableKeys p.profiles).Nodup → AlmostConsistent p.profiles pending →
    ConsistentTable (editCloseAux p pending).profiles := by
  intro pending
  induction pending with
  | nil =>
    intro p _ hac e he
    rcases hac e he with h | h
    · exact h
    · cases h
  | cons k rest ih =>
    intro p hnd hac
    obtain ⟨hnd', hac'⟩ := editCloseStep_invariant p k rest hnd hac
    exact ih _ hnd' hac'

theorem deletionFlow_profiles (p : PluginState) (id : Str) (c : ReplacementChoice) :
    (deletionFlow p id c).profiles = eraseKey p.profiles id := by
  simp only [deletionFlow]
  by_cases ha : getAffectedFiles p id = []
  · rw [if_pos ha]
  · rw [if_neg ha]
    cases c <;> rfl

/-- C10: after each profile-registry operation — committing renames on the
edit modal's close, adding a profile, copying a profile, and every branch of
the deletion flow — every table entry is stored under the key equal to its
own id field.  The onClose re-keying walk restores consistency from any
edited state whose keys are distinct; the other operations preserve it. -/
theorem c10_profile_key_id_consistency :
    (∀ p : PluginState, (tableKeys p.profiles).Nodup →
      ConsistentTable (editClose p).profiles)
    ∧ (∀ (t : ProfileTable) (id : Str), ConsistentTable t →
        ConsistentTable (addProfile t id))
    ∧ (∀ (t : ProfileTable) (id : Str), ConsistentTable t →
        ConsistentTable (copyProfile t id))
    ∧ (∀ (p : PluginState) (id : Str) (c : ReplacementChoice), ConsistentTable p.profiles →
        ConsistentTable (deletionFlow p id c).profiles) := by
  refine ⟨?_, ?_, ?_, ?_⟩
  · intro p hnd
    exact editCloseAux_consistent _ p hnd
      (fun e he => Or.inr (List.mem_map_of_mem (fun x => x.1) he))
  · intro t id h e he
    rcases mem_insertT _ _ _ _ he with heq | ⟨h1, _⟩
    · rw [heq]
    · exact h e h1
  · intro t id h e he
    cases hl : lookupA t id with
    | none =>
      have hred : copyProfile t id = t := by
        unfold copyProfile
        rw [hl]
      rw [hred] at he
      exact h e he
    | some prof =>
      have hred : copyProfile t id
          = insertT t (makeIdOfCopy id t) { prof with id := makeIdOfCopy id t } := by
        unfold copyProfile
        rw [hl]
      rw [hred] at he
      rcases mem_insertT _ _ _ _ he with heq | ⟨h1, _⟩
      · rw [heq]
      · exact h e h1
  · intro p id c h e he
    rw [deletionFlow_profiles] at he
    exact h e ((mem_eraseKey _ _ _).mp he).1

/-- C10 witness: the re-keying walk restores consistency after editing the
id of "English" to "EN", and adding, copying and deleting on concrete
consistent tables keep every entry keyed by its own id. -/
theorem c10_profile_key_id_consistency_witness :
    ConsistentTable (editClose pluginEditedProfile).profiles
    ∧ ConsistentTable (addProfile DEFAULT_PROFILES "French".data)
    ∧ ConsistentTable (copyProfile DEFAULT_PROFILES "English".data)
    ∧ ConsistentTable (deletionFlow emptyPlugin "Japanese".data .cancel).profiles :=
  ⟨c10_profile_key_id_consistency.1 pluginEditedProfile (by decide),
   c10_profile_key_id_consistency.2.1 DEFAULT_PROFILES "French".data (by decide),
   c10_profile_key_id_consistency.2.2.1 DEFAULT_PROFILES "English".data (by decide),
   c10_profile_key_id_consistency.2.2.2 emptyPlugin "Japanese".data .cancel (by decide)⟩

end MathBooster
